import Mathlib

/-!
Shallow embedding of `src/np_eyetracking/lims_dlc.py` (AllenInstitute/np_eyetracking).

Filenames and identifiers are modelled as `String`s (ASCII, as in the repository's
data).  Directories are modelled as lists of entry names in filesystem enumeration
order.  `pathlib.Path.glob` is modelled with fnmatch semantics, case-insensitively
(the repository runs against Windows-mounted lims shares and its doctests rely on
files named `Eye_*.mp4` matching the lowercase glob pattern).

Python exceptions (assertion failures, `FileNotFoundError`, `KeyError`, collaborator
I/O errors) are modelled with an explicit error type; stateful code threads an
explicit `World` value and returns the world reached at the point an exception
propagates.
-/

namespace NpEyetracking

instance {ε α : Type} [DecidableEq ε] [DecidableEq α] : DecidableEq (Except ε α) := fun a b =>
  match a, b with
  | .ok x, .ok y => if h : x = y then .isTrue (by rw [h]) else .isFalse (by simp [h])
  | .error x, .error y => if h : x = y then .isTrue (by rw [h]) else .isFalse (by simp [h])
  | .ok _, .error _ => .isFalse (by simp)
  | .error _, .ok _ => .isFalse (by simp)

/-- ASCII lowercasing of one character, as `str.lower` acts on ASCII data. -/
def lowerChar (c : Char) : Char :=
  if 65 ≤ c.toNat ∧ c.toNat ≤ 90 then Char.ofNat (c.toNat + 32) else c

/-- `name.lower()` on an ASCII filename, as a character list. -/
def lowerName (s : String) : List Char := s.data.map lowerChar

/-- Does `pat` occur as a contiguous run inside `s`?  Models Python's `pat in s`. -/
def hasSubstr (pat : List Char) : List Char → Bool
  | [] => pat.isEmpty
  | c :: cs => pat.isPrefixOf (c :: cs) || hasSubstr pat cs

/-- Python `cue in path.name.lower()` for an (already lowercase) cue. -/
def containsCue (s : String) (cue : String) : Bool :=
  hasSubstr cue.data (lowerName s)

/-- `pathlib.PurePath.suffix`: the final `"."`-extension of a name, including the
dot, and `""` when the only dot is leading or trailing or there is no dot. -/
def pySuffix (s : String) : List Char :=
  let cs := s.data
  match ((List.range cs.length).filter (fun i => cs.getD i ' ' = '.')).getLast? with
  | none => []
  | some i => if 0 < i ∧ i < cs.length - 1 then cs.drop i else []

/-- `path.suffix.lower()` equals the given lowercase extension. -/
def suffixIs (s : String) (ext : String) : Bool :=
  (pySuffix s).map lowerChar = ext.data

/-- Characters of the fnmatch character class `[eye|face|side|behavior]`. -/
def globHeadClass : List Char := "eye|face|side|behavior".data

/-- Characters of the fnmatch character class `[.mp4|.json]`. -/
def globTailClass : List Char := ".mp4|.json".data

/-- One entry name matches the glob pattern `[eye|face|side|behavior]*[.mp4|.json]`
(fnmatch: one character from the first class, anything, one character from the
second class), compared case-insensitively as on a Windows filesystem. -/
def globMatch (s : String) : Bool :=
  let cs := lowerName s
  decide (2 ≤ cs.length) && globHeadClass.contains (cs.headD ' ')
    && globTailClass.contains (cs.getLastD ' ')

/-- The role key computed for one enumerated path by the body of
`get_video_files`: sequential (non-elif) checks, later cues overriding earlier
ones, `""` when no cue matches. -/
def classifyKey (name : String) : String :=
  let key := ""
  let key :=
    if suffixIs name ".mp4" then
      let key := if containsCue name "eye" then "eye_tracking" else key
      let key := if containsCue name "face" then "face_tracking" else key
      if containsCue name "side" || containsCue name "behavior" then "behavior_tracking" else key
    else key
  let key :=
    if suffixIs name ".json" then
      let key := if containsCue name "eye" then "eye_cam_json" else key
      let key := if containsCue name "face" then "face_cam_json" else key
      if containsCue name "side" || containsCue name "behavior" then "beh_cam_json" else key
    else key
  key

/-- Errors raised by the workflow (Python exceptions). -/
inductive Err : Type
  /-- `assert key, 'Not an expected raw video data mp4 or json: …'` -/
  | notExpected (name : String)
  /-- `assert key not in lims_name_to_path, 'Duplicate files found …'` naming the
  previously stored file and the new one, in that order. -/
  | duplicate (first second : String)
  /-- `assert lims_name_to_path, 'No raw video data found …'` -/
  | noRawData
  /-- `assert spoof_session.lims_path, 'No lims path found …'` -/
  | noLimsPath
  /-- `raise FileNotFoundError('No ellipse .h5 file found for …')` -/
  | noEllipse
  /-- `KeyError` from `get_video_files(session)['eye_cam_json']`. -/
  | keyMissing
  /-- I/O failure of the `np_tools.copy` collaborator. -/
  | copyFailed
  /-- I/O failure of `file.write_text` for the platform json. -/
  | manifestWriteFailed
  /-- I/O failure of `np_session.write_trigger_file`. -/
  | triggerWriteFailed
deriving DecidableEq, Repr

/-- Python `dict` lookup on an insertion-ordered association list. -/
def lookupKey (key : String) : List (String × String) → Option String
  | [] => none
  | kv :: rest => if kv.1 = key then some kv.2 else lookupKey key rest

/-- Loop body of `get_video_files`: fold the enumerated paths into the
insertion-ordered dict `lims_name_to_path`, failing as the assertions do. -/
def classifyFold (acc : List (String × String)) :
    List String → Except Err (List (String × String))
  | [] => .ok acc
  | name :: rest =>
    let key := classifyKey name
    if key = "" then .error (.notExpected name)
    else
      match lookupKey key acc with
      | some prev => .error (.duplicate prev name)
      | none => classifyFold (acc ++ [(key, name)]) rest

/-- `get_video_files`: glob the raw directory, classify each enumerated entry into
a role key, insertion-ordered; duplicate roles and unclassifiable entries are
fatal, as is an empty result. -/
def get_video_files (rawDir : List String) : Except Err (List (String × String)) :=
  match classifyFold [] (rawDir.filter globMatch) with
  | .ok [] => .error .noRawData
  | .ok m => .ok m
  | .error e => .error e

example : get_video_files ["Eye_20230201T122604.mp4", "Eye_20230201T122604.json"] =
    .ok [("eye_tracking", "Eye_20230201T122604.mp4"),
         ("eye_cam_json", "Eye_20230201T122604.json")] := by decide

example : get_video_files ["my_eye.mp4"] = .error .noRawData := by decide

example : get_video_files ["eye1.mp4", "eye2.mp4"] =
    .error (.duplicate "eye1.mp4" "eye2.mp4") := by decide

example : get_video_files ["ern.mp4", "eye1.mp4", "eye2.mp4"] =
    .error (.notExpected "ern.mp4") := by decide

example : classifyKey "eyeface.mp4" = "face_tracking" := by decide

example : get_video_files
    ["Eye_x.mp4", "Face_x.mp4", "Behavior_x.mp4",
     "Eye_x.json", "Face_x.json", "Behavior_x.json"] =
    .ok [("eye_tracking", "Eye_x.mp4"), ("face_tracking", "Face_x.mp4"),
         ("behavior_tracking", "Behavior_x.mp4"), ("eye_cam_json", "Eye_x.json"),
         ("face_cam_json", "Face_x.json"), ("beh_cam_json", "Behavior_x.json")] := by decide

/-- The session's persistent key-value store, restricted to the two keys this
module reads or writes.  `spoof` holds `str(spoof_session)` once written;
`dlc_started` is only ever written as `True` by this module. -/
structure SessionState where
  spoof : Option String
  dlc_started : Option Bool
deriving DecidableEq, Repr

/-- Observable world state threaded through the side-effecting functions:
the session store plus collaborator effects (registry create calls with their
(owner, mouse-id) arguments, upload invocations, files copied to the incoming
dir, the platform-json written as (filename, text), the trigger file). -/
structure World where
  state : SessionState
  createCalls : List (String × Nat)
  uploadCalls : Nat
  copies : List String
  manifest : Option (String × String)
  trigger : Option String
deriving DecidableEq, Repr

/-- External collaborators: the raw directory listing (in enumeration order),
the registry's stream of fresh job identifiers (indexed by how many creates
happened before), lims path resolution (a job id's output tree as a list of
immediate subdirectories with their entries, in enumeration order), and
success/failure of the copy, manifest-write and trigger-write collaborators. -/
structure Env where
  rawDir : List String
  freshId : Nat → String
  limsPath : String → Option (List (String × List String))
  copyOk : Bool
  manifestOk : Bool
  triggerOk : Bool

/-- Python truthiness of `session.state.get('spoof')` (a `str | None`). -/
def spoofTruthy (st : SessionState) : Bool :=
  match st.spoof with
  | some s => decide (s ≠ "")
  | none => false

/-- Python truthiness of `session.state.get('dlc_started')`. -/
def startedTruthy (st : SessionState) : Bool := st.dlc_started.getD false

/-- `generate_spoof_ecephys_session`: ask the registry for a fresh ephys session
for the given mouse, always under the hard-coded operator `'ben.hardcastle'`. -/
def generate_spoof_ecephys_session (env : Env) (w : World) (labtracks_mouse_id : Nat) :
    World × String :=
  let spoofId := env.freshId w.createCalls.length
  ({ w with createCalls := w.createCalls ++ [("ben.hardcastle", labtracks_mouse_id)] }, spoofId)

/-- `get_spoof_ecephys_session`: return the cached identifier when
`session.state['spoof']` is truthy; otherwise create a fresh spoof session for
the hard-coded mouse `366122` and persist its identifier before returning. -/
def get_spoof_ecephys_session (env : Env) (w : World) : World × String :=
  if spoofTruthy w.state then
    (w, w.state.spoof.getD "")
  else
    let p := generate_spoof_ecephys_session env w 366122
    ({ p.1 with state := { p.1.state with spoof := some p.2 } }, p.2)

/-- `json.dumps({'files': {k: {'filename': v.name} for k, v in video_files.items()}})`
with Python's default separators, in dict insertion order. -/
def manifestText (video_files : List (String × String)) : String :=
  "\x7b\"files\": \x7b" ++
    String.intercalate ", "
      (video_files.map (fun kv => "\"" ++ kv.1 ++ "\": \x7b\"filename\": \"" ++ kv.2 ++ "\"\x7d"))
    ++ "\x7d\x7d"

/-- `write_platform_json`: classify the raw directory and write the manifest to
`<incoming>/<spoof-id>_platform.json` (the returned string is the written
filename, relative to the well-known incoming root). -/
def write_platform_json (env : Env) (w : World) (spoofId : String) : World × Except Err String :=
  let filename := spoofId ++ "_platform.json"
  match get_video_files env.rawDir with
  | .error e => (w, .error e)
  | .ok video_files =>
    if env.manifestOk then
      ({ w with manifest := some (filename, manifestText video_files) }, .ok filename)
    else (w, .error .manifestWriteFailed)

/-- `copy_video_files_to_lims_incoming_dir`: copy every classified raw file into
the incoming dir. -/
def copy_video_files_to_lims_incoming_dir (env : Env) (w : World) : World × Option Err :=
  match get_video_files env.rawDir with
  | .error e => (w, some e)
  | .ok video_files =>
    if env.copyOk then
      ({ w with copies := w.copies ++ video_files.map Prod.snd }, none)
    else (w, some .copyFailed)

/-- `upload_video_data_to_lims`: resolve/create the spoof session, re-persist its
id, copy the raw files, write the platform json, write the trigger file, and
only then set `session.state['dlc_started'] = True`.  An exception at any step
propagates with the world reached so far (`some err`). -/
def upload_video_data_to_lims (env : Env) (w : World) : World × Option Err :=
  let w0 := { w with uploadCalls := w.uploadCalls + 1 }
  let p := get_spoof_ecephys_session env w0
  let w1 := { p.1 with state := { p.1.state with spoof := some p.2 } }
  match copy_video_files_to_lims_incoming_dir env w1 with
  | (w2, some e) => (w2, some e)
  | (w2, none) =>
    match write_platform_json env w2 p.2 with
    | (w3, .error e) => (w3, some e)
    | (w3, .ok _) =>
      if env.triggerOk then
        let w4 := { w3 with trigger := some p.2 }
        ({ w4 with state := { w4.state with dlc_started := some true } }, none)
      else (w3, some .triggerWriteFailed)

/-- One lims subdirectory name matches the glob component `*_tracking`
(case-insensitively, as for the raw-file glob). -/
def matchesTrackingGlob (d : String) : Bool :=
  "_tracking".data.isSuffixOf (lowerName d)

/-- `spoof_session.lims_path.glob('*_tracking/*')`: every entry of every
immediate subdirectory whose name ends in `_tracking`, in enumeration order, as
(subdirectory, entry-name) pairs. -/
def trackingOutputs (tree : List (String × List String)) : List (String × String) :=
  tree.flatMap (fun d => if matchesTrackingGlob d.1 then d.2.map (fun f => (d.1, f)) else [])

/-- Tail of `get_dlc_paths` after the optional upload: resolve the spoof
session, assert `spoof_session.lims_path` and glob `*_tracking/*`. -/
def dlc_list_of (env : Env) (w1 : World) : World × Except Err (List (String × String)) :=
  let p := get_spoof_ecephys_session env w1
  match env.limsPath p.2 with
  | none => (p.1, .error .noLimsPath)
  | some tree => (p.1, .ok (trackingOutputs tree))

/-- `get_dlc_paths`: launch the upload when the spoof id or the started flag is
missing/falsy (propagating its exception), then resolve the spoof session and
list its `*_tracking/*` outputs; a missing lims path is an assertion failure. -/
def get_dlc_paths (env : Env) (w : World) : World × Except Err (List (String × String)) :=
  if !spoofTruthy w.state || !startedTruthy w.state then
    match upload_video_data_to_lims env w with
    | (w1, some e) => (w1, .error e)
    | (w1, none) => dlc_list_of env w1
  else dlc_list_of env w

/-- `get_eye_tracking_paths`: take the first dlc output whose name contains
`'ellipse'`; when there is none, return `None` (pending) if `dlc_started` is
truthy and raise `FileNotFoundError` otherwise; when there is one, pair it with
the session's `eye_cam_json` raw file (re-classified from the raw directory). -/
def get_eye_tracking_paths (env : Env) (w : World) :
    World × Except Err (Option (List (String × String))) :=
  match get_dlc_paths env w with
  | (w1, .error e) => (w1, .error e)
  | (w1, .ok paths) =>
    match paths.find? (fun f => hasSubstr "ellipse".data f.2.data) with
    | none =>
      if startedTruthy w1.state then (w1, .ok none)
      else (w1, .error .noEllipse)
    | some dlc_path =>
      match get_video_files env.rawDir with
      | .error e => (w1, .error e)
      | .ok video_files =>
        match lookupKey "eye_cam_json" video_files with
        | none => (w1, .error .keyMissing)
        | some raw =>
          (w1, .ok (some [("raw_eye_tracking_video_meta_data", raw),
                          ("raw_eye_tracking_filepath", dlc_path.1 ++ "/" ++ dlc_path.2)]))

/-- A fresh session: empty store, no collaborator effects yet. -/
def freshWorld : World :=
  { state := { spoof := none, dlc_started := none }
    createCalls := [], uploadCalls := 0, copies := [], manifest := none, trigger := none }

/-- A small healthy environment used for concrete checks. -/
def sampleEnv (outputs : List (String × List String)) : Env :=
  { rawDir := ["Eye_20230201T122604.mp4", "Eye_20230201T122604.json"]
    freshId := fun n => "123456789" ++ toString n
    limsPath := fun s => if s = "1234567890" then some outputs else none
    copyOk := true, manifestOk := true, triggerOk := true }

/-- Concrete healthy environment for witnesses: constant registry id. -/
def witEnvOk : Env :=
  { rawDir := ["Eye_20230201T122604.mp4", "Eye_20230201T122604.json"]
    freshId := fun _ => "1234567890"
    limsPath := fun s => if s = "1234567890" then some [("eye_tracking", [])] else none
    copyOk := true, manifestOk := true, triggerOk := true }

/-- Witness environment whose job output already holds an ellipse file. -/
def witEnvReady : Env :=
  { witEnvOk with
      limsPath := fun s =>
        if s = "1234567890" then some [("eye_tracking", ["out_ellipse.h5"])] else none }

/-- Witness environment whose trigger-file collaborator fails. -/
def witEnvNoTrigger : Env := { witEnvOk with triggerOk := false }

/-- The closed set of six role keys. -/
def sixRoles : List String :=
  ["eye_tracking", "face_tracking", "behavior_tracking",
   "eye_cam_json", "face_cam_json", "beh_cam_json"]

/-- A session already uploaded: cached spoof id and `dlc_started = True`. -/
def startedWorld : World :=
  { freshWorld with state := { spoof := some "1234567890", dlc_started := some true } }

example :
    get_eye_tracking_paths (sampleEnv [("eye_tracking", [])]) freshWorld =
      ({ state := { spoof := some "1234567890", dlc_started := some true }
         createCalls := [("ben.hardcastle", 366122)]
         uploadCalls := 1
         copies := ["Eye_20230201T122604.mp4", "Eye_20230201T122604.json"]
         manifest := some ("1234567890_platform.json",
           "\x7b\"files\": \x7b\"eye_tracking\": \x7b\"filename\": \"Eye_20230201T122604.mp4\"\x7d, \"eye_cam_json\": \x7b\"filename\": \"Eye_20230201T122604.json\"\x7d\x7d\x7d")
         trigger := some "1234567890" },
       .ok none) := by decide

example :
    (get_eye_tracking_paths (sampleEnv [("eye_tracking", ["output_ellipse.h5"])]) freshWorld).2 =
      .ok (some [("raw_eye_tracking_video_meta_data", "Eye_20230201T122604.json"),
                 ("raw_eye_tracking_filepath", "eye_tracking/output_ellipse.h5")]) := by decide

/-! ## Basic lemmas about the job-handle resolver -/

@[simp]
theorem get_spoof_fst_dlc (env : Env) (w : World) :
    (get_spoof_ecephys_session env w).1.state.dlc_started = w.state.dlc_started := by
  unfold get_spoof_ecephys_session generate_spoof_ecephys_session
  by_cases h : spoofTruthy w.state <;> simp [h]

@[simp]
theorem get_spoof_fst_uploadCalls (env : Env) (w : World) :
    (get_spoof_ecephys_session env w).1.uploadCalls = w.uploadCalls := by
  unfold get_spoof_ecephys_session generate_spoof_ecephys_session
  by_cases h : spoofTruthy w.state <;> simp [h]

@[simp]
theorem get_spoof_fst_copies (env : Env) (w : World) :
    (get_spoof_ecephys_session env w).1.copies = w.copies := by
  unfold get_spoof_ecephys_session generate_spoof_ecephys_session
  by_cases h : spoofTruthy w.state <;> simp [h]

@[simp]
theorem get_spoof_fst_manifest (env : Env) (w : World) :
    (get_spoof_ecephys_session env w).1.manifest = w.manifest := by
  unfold get_spoof_ecephys_session generate_spoof_ecephys_session
  by_cases h : spoofTruthy w.state <;> simp [h]

@[simp]
theorem get_spoof_fst_trigger (env : Env) (w : World) :
    (get_spoof_ecephys_session env w).1.trigger = w.trigger := by
  unfold get_spoof_ecephys_session generate_spoof_ecephys_session
  by_cases h : spoofTruthy w.state <;> simp [h]

/-- The resolver's result is unchanged by the `uploadCalls` counter. -/
theorem get_spoof_set_uploadCalls (env : Env) (w : World) (k : Nat) :
    get_spoof_ecephys_session env { w with uploadCalls := k } =
      ({ (get_spoof_ecephys_session env w).1 with uploadCalls := k },
        (get_spoof_ecephys_session env w).2) := by
  unfold get_spoof_ecephys_session generate_spoof_ecephys_session
  by_cases h : spoofTruthy w.state <;> simp [h]

/-- After a resolve, the cached id is the returned id and is truthy (assuming the
registry only hands out nonempty identifiers). -/
theorem get_spoof_caches (env : Env) (w : World) (hfresh : ∀ n, env.freshId n ≠ "") :
    (get_spoof_ecephys_session env w).1.state.spoof = some (get_spoof_ecephys_session env w).2
      ∧ (get_spoof_ecephys_session env w).2 ≠ "" := by
  unfold get_spoof_ecephys_session generate_spoof_ecephys_session spoofTruthy
  match hs : w.state.spoof with
  | none => simp [hs, hfresh]
  | some s =>
    by_cases h : s = ""
    · simp [hs, h, hfresh]
    · simp [hs, h]

/-- C1: resolving the external job twice on the same session state yields the
identical identifier, the second resolve changes nothing, the registry's create
operation runs at most once across the two calls, and a state that already holds
a (truthy) identifier is answered immediately with no new job. -/
theorem resolve_twice_same_id_at_most_one_create (env : Env) (w : World)
    (hfresh : ∀ n, env.freshId n ≠ "") :
    (get_spoof_ecephys_session env (get_spoof_ecephys_session env w).1).2
        = (get_spoof_ecephys_session env w).2
    ∧ (get_spoof_ecephys_session env (get_spoof_ecephys_session env w).1).1
        = (get_spoof_ecephys_session env w).1
    ∧ (get_spoof_ecephys_session env w).1.createCalls.length ≤ w.createCalls.length + 1
    ∧ (spoofTruthy w.state = true →
        get_spoof_ecephys_session env w = (w, w.state.spoof.getD "")) := by
  unfold get_spoof_ecephys_session generate_spoof_ecephys_session spoofTruthy
  match hs : w.state.spoof with
  | none => simp [hs, hfresh]
  | some s =>
    by_cases h : s = ""
    · simp [hs, h, hfresh]
    · simp [hs, h]

theorem witEnvOk_freshId (n : Nat) : witEnvOk.freshId n ≠ "" := by
  show ("1234567890" : String) ≠ ""
  decide

theorem resolve_twice_same_id_at_most_one_create_witness :
    (∀ n, witEnvOk.freshId n ≠ "")
    ∧ ((get_spoof_ecephys_session witEnvOk (get_spoof_ecephys_session witEnvOk freshWorld).1).2
          = (get_spoof_ecephys_session witEnvOk freshWorld).2
      ∧ (get_spoof_ecephys_session witEnvOk (get_spoof_ecephys_session witEnvOk freshWorld).1).1
          = (get_spoof_ecephys_session witEnvOk freshWorld).1
      ∧ (get_spoof_ecephys_session witEnvOk freshWorld).1.createCalls.length
          ≤ freshWorld.createCalls.length + 1
      ∧ (spoofTruthy freshWorld.state = true →
          get_spoof_ecephys_session witEnvOk freshWorld
            = (freshWorld, freshWorld.state.spoof.getD ""))) :=
  ⟨witEnvOk_freshId,
    resolve_twice_same_id_at_most_one_create witEnvOk freshWorld witEnvOk_freshId⟩

/-- C10: whenever a job is actually created (no truthy cached identifier), the
create call passes the hard-coded owner `'ben.hardcastle'` and the hard-coded
mouse `366122`, for every environment and world. -/
theorem create_uses_hardcoded_owner_and_mouse (env : Env) (w : World)
    (h : spoofTruthy w.state = false) :
    (get_spoof_ecephys_session env w).1.createCalls
      = w.createCalls ++ [("ben.hardcastle", 366122)] := by
  unfold get_spoof_ecephys_session generate_spoof_ecephys_session
  simp [h]

theorem create_uses_hardcoded_owner_and_mouse_witness :
    spoofTruthy freshWorld.state = false
    ∧ (get_spoof_ecephys_session witEnvOk freshWorld).1.createCalls
        = freshWorld.createCalls ++ [("ben.hardcastle", 366122)] :=
  ⟨by decide, create_uses_hardcoded_owner_and_mouse witEnvOk freshWorld (by decide)⟩

/-! ## Manifest (C5) -/

/-- C5: the manifest is written to `<intake-dir>/<job-identifier>_platform.json`
with content exactly `json.dumps({"files": {role: {"filename": basename}, ...}})`
over the classified files in classification-iteration order; for the two
`Eye_20230201T122604` raw files the text is the stated literal. -/
theorem platform_json_path_and_content (env : Env) (w : World)
    (video_files : List (String × String)) (spoofId : String)
    (hman : env.manifestOk = true)
    (hgv : get_video_files env.rawDir = .ok video_files) :
    write_platform_json env w spoofId =
      ({ w with manifest := some (spoofId ++ "_platform.json", manifestText video_files) },
        .ok (spoofId ++ "_platform.json"))
    ∧ write_platform_json witEnvOk freshWorld "1234567890" =
      ({ freshWorld with manifest := some ("1234567890_platform.json",
          "\x7b\"files\": \x7b\"eye_tracking\": \x7b\"filename\": \"Eye_20230201T122604.mp4\"\x7d, \"eye_cam_json\": \x7b\"filename\": \"Eye_20230201T122604.json\"\x7d\x7d\x7d") },
        .ok "1234567890_platform.json") := by
  constructor
  · unfold write_platform_json
    simp [hgv, hman]
  · decide

theorem platform_json_path_and_content_witness :
    witEnvOk.manifestOk = true
    ∧ get_video_files witEnvOk.rawDir
        = .ok [("eye_tracking", "Eye_20230201T122604.mp4"),
               ("eye_cam_json", "Eye_20230201T122604.json")]
    ∧ write_platform_json witEnvOk freshWorld "1234567890" =
      ({ freshWorld with manifest := some ("1234567890_platform.json",
          manifestText [("eye_tracking", "Eye_20230201T122604.mp4"),
                        ("eye_cam_json", "Eye_20230201T122604.json")]) },
        .ok ("1234567890" ++ "_platform.json")) :=
  ⟨by decide, by decide,
    (platform_json_path_and_content witEnvOk freshWorld
      [("eye_tracking", "Eye_20230201T122604.mp4"),
       ("eye_cam_json", "Eye_20230201T122604.json")]
      "1234567890" (by decide) (by decide)).1⟩

/-! ## Multi-cue override (C9) -/

theorem suffix_mp4_not_json (name : String) (h : suffixIs name ".mp4" = true) :
    suffixIs name ".json" = false := by
  have hm := of_decide_eq_true h
  apply decide_eq_false
  intro hj
  rw [hm] at hj
  exact absurd hj (by decide)

theorem suffix_json_not_mp4 (name : String) (h : suffixIs name ".json" = true) :
    suffixIs name ".mp4" = false := by
  have hm := of_decide_eq_true h
  apply decide_eq_false
  intro hj
  rw [hm] at hj
  exact absurd hj (by decide)

/-- C9: a candidate name carrying several cues raises no error and is assigned
the role of the cue checked last — `face` overrides `eye`, and `side`/`behavior`
override both — in the `.mp4` and the `.json` branch alike; such a candidate,
when enumerated, is classified without any error. -/
theorem multi_cue_last_check_wins (name : String) :
    (suffixIs name ".mp4" = true →
      (containsCue name "face" = true → containsCue name "side" = false →
        containsCue name "behavior" = false → classifyKey name = "face_tracking")
      ∧ (containsCue name "side" = true ∨ containsCue name "behavior" = true →
          classifyKey name = "behavior_tracking"))
    ∧ (suffixIs name ".json" = true →
      (containsCue name "face" = true → containsCue name "side" = false →
        containsCue name "behavior" = false → classifyKey name = "face_cam_json")
      ∧ (containsCue name "side" = true ∨ containsCue name "behavior" = true →
          classifyKey name = "beh_cam_json"))
    ∧ (globMatch name = true → classifyKey name ≠ "" →
        get_video_files [name] = .ok [(classifyKey name, name)]) := by
  refine ⟨fun hmp4 => ⟨fun hf hs hb => ?_, fun hsb => ?_⟩,
          fun hjson => ⟨fun hf hs hb => ?_, fun hsb => ?_⟩,
          fun hglob hkey => ?_⟩
  · unfold classifyKey
    simp [hmp4, hf, hs, hb, suffix_mp4_not_json name hmp4]
  · unfold classifyKey
    rcases hsb with hsb | hsb <;>
      simp [hmp4, hsb, suffix_mp4_not_json name hmp4]
  · unfold classifyKey
    simp [hjson, hf, hs, hb, suffix_json_not_mp4 name hjson]
  · unfold classifyKey
    rcases hsb with hsb | hsb <;>
      simp [hjson, hsb, suffix_json_not_mp4 name hjson]
  · unfold get_video_files
    simp [hglob, hkey, classifyFold, lookupKey]

theorem multi_cue_last_check_wins_witness :
    classifyKey "eyeface.mp4" = "face_tracking"
    ∧ classifyKey "eyefaceside.mp4" = "behavior_tracking"
    ∧ classifyKey "eyeface.json" = "face_cam_json"
    ∧ classifyKey "eyefacebehavior.json" = "beh_cam_json"
    ∧ get_video_files ["eyeface.mp4"] = .ok [("face_tracking", "eyeface.mp4")] :=
  ⟨((multi_cue_last_check_wins "eyeface.mp4").1 (by decide)).1
      (by decide) (by decide) (by decide),
   ((multi_cue_last_check_wins "eyefaceside.mp4").1 (by decide)).2
      (Or.inl (by decide)),
   ((multi_cue_last_check_wins "eyeface.json").2.1 (by decide)).1
      (by decide) (by decide) (by decide),
   ((multi_cue_last_check_wins "eyefacebehavior.json").2.1 (by decide)).2
      (Or.inr (by decide)),
   by
     have h := (multi_cue_last_check_wins "eyeface.mp4").2.2 (by decide) (by decide)
     simpa [show classifyKey "eyeface.mp4" = "face_tracking" from by decide] using h⟩

/-! ## Classifier lemmas (C7, C8) -/

theorem lookupKey_append (k : String) (l l' : List (String × String)) :
    lookupKey k (l ++ l') =
      match lookupKey k l with
      | some v => some v
      | none => lookupKey k l' := by
  induction l with
  | nil => simp [lookupKey]
  | cons kv rest ih =>
    by_cases h : kv.1 = k <;> simp [lookupKey, h, ih]

theorem lookupKey_eq_none (k : String) (l : List (String × String)) :
    lookupKey k l = none ↔ ∀ kv ∈ l, kv.1 ≠ k := by
  induction l with
  | nil => simp [lookupKey]
  | cons kv rest ih =>
    by_cases h : kv.1 = k <;> simp [lookupKey, h, ih]

theorem lookupKey_mem {k v : String} {l : List (String × String)}
    (h : lookupKey k l = some v) : (k, v) ∈ l := by
  induction l with
  | nil => simp [lookupKey] at h
  | cons kv rest ih =>
    by_cases hk : kv.1 = k
    · have h2 : kv.2 = v := by simpa [lookupKey, hk] using h
      have he : kv = (k, v) := by
        cases kv
        simp_all
      rw [he]
      exact .head _
    · rw [lookupKey, if_neg hk] at h
      exact .tail _ (ih h)

/-- When every candidate classifies to a fresh nonduplicated role, the fold
succeeds and appends the (role, file) pairs in enumeration order. -/
theorem classifyFold_ok (files : List String) (acc : List (String × String))
    (hkeys : ∀ f ∈ files, classifyKey f ≠ "")
    (hnodup : (files.map classifyKey).Nodup)
    (hdisj : ∀ f ∈ files, lookupKey (classifyKey f) acc = none) :
    classifyFold acc files = .ok (acc ++ files.map (fun f => (classifyKey f, f))) := by
  induction files generalizing acc with
  | nil => simp [classifyFold]
  | cons f fs ih =>
    have hkey : classifyKey f ≠ "" := hkeys f (.head _)
    have hlook : lookupKey (classifyKey f) acc = none := hdisj f (.head _)
    have step := ih (acc ++ [(classifyKey f, f)])
      (fun g hg => hkeys g (.tail _ hg))
      (by simpa using hnodup.of_cons)
      (fun g hg => by
        rw [lookupKey_append, hdisj g (.tail _ hg)]
        have hne : classifyKey f ≠ classifyKey g := by
          intro he
          exact (List.nodup_cons.mp hnodup).1 (by rw [he]; exact List.mem_map_of_mem _ hg)
        simp [lookupKey, hne])
    simp [classifyFold, hkey, hlook, step]

/-- Looking a file's own role up in the assoc list built from a
nodup-role enumeration returns that file. -/
theorem lookupKey_map_self (l : List String)
    (hnodup : (l.map classifyKey).Nodup) :
    ∀ f ∈ l, lookupKey (classifyKey f) (l.map (fun g => (classifyKey g, g))) = some f := by
  induction l with
  | nil => simp
  | cons g gs ih =>
    intro f hf
    cases hf with
    | head => simp [lookupKey]
    | tail _ hf =>
      have hne : classifyKey g ≠ classifyKey f := by
        intro he
        exact (List.nodup_cons.mp hnodup).1 (he ▸ List.mem_map_of_mem _ hf)
      simp only [List.map_cons, lookupKey]
      rw [if_neg hne]
      exact ih (List.nodup_cons.mp hnodup).2 f hf

/-- C7 (amended): a raw directory holding exactly one file per role whose names
additionally match the source's glob pattern `[eye|face|side|behavior]*[.mp4|.json]`
is classified into all six roles, each mapped to its file, for every enumeration
order and any letter case. -/
theorem one_file_per_role_classifies (dir : List String)
    (hglob : ∀ f ∈ dir, globMatch f = true)
    (hperm : (dir.map classifyKey).Perm sixRoles) :
    get_video_files dir = .ok (dir.map (fun f => (classifyKey f, f)))
    ∧ ((dir.map (fun f => (classifyKey f, f))).map Prod.fst).Perm sixRoles
    ∧ ∀ f ∈ dir,
        lookupKey (classifyKey f) (dir.map (fun f => (classifyKey f, f))) = some f := by
  have hfilter : dir.filter globMatch = dir := List.filter_eq_self.mpr hglob
  have hnodup : (dir.map classifyKey).Nodup :=
    hperm.nodup_iff.mpr (by decide)
  have hkeys : ∀ f ∈ dir, classifyKey f ≠ "" := by
    intro f hf
    have hmem : classifyKey f ∈ sixRoles :=
      hperm.mem_iff.mp (List.mem_map_of_mem _ hf)
    have : ∀ r ∈ sixRoles, r ≠ "" := by decide
    exact this _ hmem
  have hfold := classifyFold_ok dir [] hkeys hnodup (fun f _ => rfl)
  have hne : dir ≠ [] := by
    intro he
    have := hperm.length_eq
    rw [he] at this
    simp [sixRoles] at this
  refine ⟨?_, by simpa using hperm, lookupKey_map_self dir hnodup⟩
  unfold get_video_files
  rw [hfilter, hfold]
  cases dir with
  | nil => exact absurd rfl hne
  | cons f fs => simp

theorem one_file_per_role_classifies_witness :
    (∀ f ∈ ["Eye_x.mp4", "Behavior_x.json", "Face_x.mp4", "Eye_x.json",
            "Behavior_x.mp4", "Face_x.json"], globMatch f = true)
    ∧ get_video_files ["Eye_x.mp4", "Behavior_x.json", "Face_x.mp4", "Eye_x.json",
                       "Behavior_x.mp4", "Face_x.json"]
        = .ok (["Eye_x.mp4", "Behavior_x.json", "Face_x.mp4", "Eye_x.json",
                "Behavior_x.mp4", "Face_x.json"].map (fun f => (classifyKey f, f))) :=
  ⟨by decide,
    (one_file_per_role_classifies
      ["Eye_x.mp4", "Behavior_x.json", "Face_x.mp4", "Eye_x.json",
       "Behavior_x.mp4", "Face_x.json"]
      (by decide) (by decide)).1⟩

/-- A directory with one file per valid role whose names do not start and end
inside the glob's character classes: the claimed six-role result is refuted —
classification sees no candidates at all and fails. -/
def badDir : List String :=
  ["my_eye.mp4", "my_face.mp4", "my_side.mp4", "my_eye.json", "my_face.json", "my_side.json"]

theorem one_file_per_role_counterexample :
    badDir.map classifyKey = sixRoles
    ∧ badDir.map (fun f => suffixIs f ".mp4" || suffixIs f ".json")
        = [true, true, true, true, true, true]
    ∧ get_video_files badDir = .error .noRawData
    ∧ ∀ m, get_video_files badDir ≠ .ok m := by
  refine ⟨by decide, by decide, by decide, ?_⟩
  intro m h
  rw [show get_video_files badDir = .error .noRawData from by decide] at h
  exact absurd h (by simp)

/-- When every candidate is classifiable yet two of them carry the same role,
the fold stops with a duplicate error naming two distinct same-role files. -/
theorem classifyFold_duplicate (files : List String) (acc : List (String × String))
    (hkeys : ∀ f ∈ files, classifyKey f ≠ "")
    (hacc : ∀ kv ∈ acc, classifyKey kv.2 = kv.1)
    (haccnd : (acc.map Prod.fst).Nodup)
    (hvals : ((acc.map Prod.snd) ++ files).Nodup)
    (hdup : ¬ ((acc.map Prod.fst) ++ files.map classifyKey).Nodup) :
    ∃ a b, classifyFold acc files = .error (.duplicate a b)
      ∧ classifyKey a = classifyKey b
      ∧ a ∈ (acc.map Prod.snd ++ files) ∧ b ∈ files ∧ a ≠ b := by
  induction files generalizing acc with
  | nil => simp at hdup; exact absurd haccnd hdup
  | cons f fs ih =>
    have hkey : classifyKey f ≠ "" := hkeys f (.head _)
    match hlook : lookupKey (classifyKey f) acc with
    | some prev =>
      refine ⟨prev, f, ?_, ?_, ?_, .head _, ?_⟩
      · simp [classifyFold, hkey, hlook]
      · have hmem := lookupKey_mem hlook
        exact hacc _ hmem
      · exact List.mem_append_left _ (List.mem_map_of_mem _ (lookupKey_mem hlook))
      · have hdisj := (List.nodup_append.mp hvals).2.2
        intro he
        exact hdisj (List.mem_map_of_mem _ (lookupKey_mem hlook)) (he ▸ List.mem_cons_self f fs)
    | none =>
      have hnotin : classifyKey f ∉ acc.map Prod.fst := by
        intro hmem
        rcases List.mem_map.mp hmem with ⟨kv, hkv, hfst⟩
        exact ((lookupKey_eq_none _ _).mp hlook kv hkv) hfst
      have step := ih (acc ++ [(classifyKey f, f)])
        (fun g hg => hkeys g (.tail _ hg))
        (by
          intro kv hkv
          rcases List.mem_append.mp hkv with h | h
          · exact hacc kv h
          · have he : kv = (classifyKey f, f) := by simpa using h
            rw [he])
        (by
          have h1 : ((acc ++ [(classifyKey f, f)]).map Prod.fst)
              = acc.map Prod.fst ++ [classifyKey f] := by simp
          rw [h1]
          exact List.Nodup.append haccnd (by simp)
            (by simpa [List.disjoint_singleton] using hnotin))
        (by
          have h2 : ((acc ++ [(classifyKey f, f)]).map Prod.snd) ++ fs
              = acc.map Prod.snd ++ (f :: fs) := by simp
          rw [h2]
          exact hvals)
        (by
          have h3 : ((acc ++ [(classifyKey f, f)]).map Prod.fst) ++ fs.map classifyKey
              = acc.map Prod.fst ++ (classifyKey f :: fs.map classifyKey) := by
            simp
          rw [h3]
          intro hcon
          exact hdup (by simpa using hcon))
      rcases step with ⟨a, b, hres, hab, hamem, hbmem, hne⟩
      refine ⟨a, b, ?_, hab, ?_, .tail _ hbmem, hne⟩
      · simp [classifyFold, hkey, hlook, hres]
      · have : (acc ++ [(classifyKey f, f)]).map Prod.snd = acc.map Prod.snd ++ [f] := by simp
        rw [this] at hamem
        rcases List.mem_append.mp hamem with h | h
        · rcases List.mem_append.mp h with h2 | h2
          · exact List.mem_append_left _ h2
          · simp at h2
            exact List.mem_append_right _ (h2 ▸ List.mem_cons_self f fs)
        · exact List.mem_append_right _ (.tail _ h)

/-- C8 (amended): in a duplicate-free raw directory whose glob-enumerated
candidates all match some cue, two candidates carrying the same role make
classification fail with the duplicate-ambiguity error, naming two distinct
files of that same role — neither is picked or dropped. -/
theorem duplicate_role_fatal (dir : List String)
    (hkeys : ∀ f ∈ dir.filter globMatch, classifyKey f ≠ "")
    (hnd : dir.Nodup)
    (hdup : ¬ ((dir.filter globMatch).map classifyKey).Nodup) :
    ∃ a b, get_video_files dir = .error (.duplicate a b)
      ∧ classifyKey a = classifyKey b
      ∧ a ∈ dir.filter globMatch ∧ b ∈ dir.filter globMatch ∧ a ≠ b := by
  have hfold := classifyFold_duplicate (dir.filter globMatch) []
    hkeys (by simp) (by simp) (by simpa using hnd.filter _) (by simpa using hdup)
  rcases hfold with ⟨a, b, hres, hab, hamem, hbmem, hne⟩
  refine ⟨a, b, ?_, hab, by simpa using hamem, hbmem, hne⟩
  unfold get_video_files
  rw [hres]

theorem duplicate_role_fatal_witness :
    (∀ f ∈ ["eye1.mp4", "eye2.mp4"].filter globMatch, classifyKey f ≠ "")
    ∧ (["eye1.mp4", "eye2.mp4"] : List String).Nodup
    ∧ ¬ ((["eye1.mp4", "eye2.mp4"].filter globMatch).map classifyKey).Nodup
    ∧ ∃ a b, get_video_files ["eye1.mp4", "eye2.mp4"] = .error (.duplicate a b)
        ∧ classifyKey a = classifyKey b
        ∧ a ∈ ["eye1.mp4", "eye2.mp4"].filter globMatch
        ∧ b ∈ ["eye1.mp4", "eye2.mp4"].filter globMatch ∧ a ≠ b :=
  ⟨by decide, by decide, by decide,
    duplicate_role_fatal ["eye1.mp4", "eye2.mp4"] (by decide) (by decide) (by decide)⟩

theorem duplicate_role_counterexample :
    classifyKey "eye1.mp4" = classifyKey "eye2.mp4"
    ∧ "eye1.mp4" ∈ ["ern.mp4", "eye1.mp4", "eye2.mp4"].filter globMatch
    ∧ "eye2.mp4" ∈ ["ern.mp4", "eye1.mp4", "eye2.mp4"].filter globMatch
    ∧ get_video_files ["ern.mp4", "eye1.mp4", "eye2.mp4"]
        = .error (.notExpected "ern.mp4")
    ∧ ∀ a b, get_video_files ["ern.mp4", "eye1.mp4", "eye2.mp4"]
        ≠ .error (.duplicate a b) := by
  refine ⟨by decide, by decide, by decide, by decide, ?_⟩
  intro a b h
  rw [show get_video_files ["ern.mp4", "eye1.mp4", "eye2.mp4"]
        = .error (.notExpected "ern.mp4") from by decide] at h
  simp at h

/-! ## Upload and retrieval lemmas (C2, C3, C4, C6) -/

theorem spoofTruthy_iff (st : SessionState) :
    spoofTruthy st = true ↔ ∃ s, st.spoof = some s ∧ s ≠ "" := by
  unfold spoofTruthy
  cases st.spoof <;> simp

theorem get_spoof_of_cached (env : Env) (w : World) (s : String)
    (h : w.state.spoof = some s) (hs : s ≠ "") :
    get_spoof_ecephys_session env w = (w, s) := by
  unfold get_spoof_ecephys_session spoofTruthy
  simp [h, hs]

theorem classifyFold_err (files : List String) (acc : List (String × String)) (e : Err)
    (h : classifyFold acc files = .error e) : e ≠ .noEllipse ∧ e ≠ .noLimsPath := by
  induction files generalizing acc with
  | nil => simp [classifyFold] at h
  | cons f fs ih =>
    by_cases hkey : classifyKey f = ""
    · simp [classifyFold, hkey] at h
      rw [← h]
      exact ⟨by simp, by simp⟩
    · match hlook : lookupKey (classifyKey f) acc with
      | some prev =>
        simp [classifyFold, hkey, hlook] at h
        rw [← h]
        exact ⟨by simp, by simp⟩
      | none =>
        simp [classifyFold, hkey, hlook] at h
        exact ih _ h

theorem get_video_files_err (d : List String) (e : Err)
    (h : get_video_files d = .error e) : e ≠ .noEllipse ∧ e ≠ .noLimsPath := by
  unfold get_video_files at h
  cases hc : classifyFold [] (d.filter globMatch) with
  | error e2 =>
    rw [hc] at h
    simp at h
    rw [← h]
    exact classifyFold_err _ _ _ hc
  | ok m =>
    rw [hc] at h
    cases m with
    | nil =>
      simp at h
      rw [← h]
      exact ⟨by simp, by simp⟩
    | cons kv rest => simp at h

/-- Successful upload: the whole effect of `upload_video_data_to_lims` in a
healthy environment, with the resolver's result left symbolic. -/
theorem upload_ok (env : Env) (w : World) (video_files : List (String × String))
    (hcopy : env.copyOk = true) (hman : env.manifestOk = true) (htrig : env.triggerOk = true)
    (hgv : get_video_files env.rawDir = .ok video_files) :
    upload_video_data_to_lims env w =
      ({ state := { spoof := some (get_spoof_ecephys_session env w).2,
                    dlc_started := some true }
         createCalls := (get_spoof_ecephys_session env w).1.createCalls
         uploadCalls := w.uploadCalls + 1
         copies := w.copies ++ video_files.map Prod.snd
         manifest := some ((get_spoof_ecephys_session env w).2 ++ "_platform.json",
                           manifestText video_files)
         trigger := some (get_spoof_ecephys_session env w).2 }, none) := by
  unfold upload_video_data_to_lims copy_video_files_to_lims_incoming_dir write_platform_json
  simp [get_spoof_set_uploadCalls, hgv, hcopy, hman, htrig]

theorem upload_uploadCalls (env : Env) (w : World) :
    (upload_video_data_to_lims env w).1.uploadCalls = w.uploadCalls + 1 := by
  unfold upload_video_data_to_lims copy_video_files_to_lims_incoming_dir write_platform_json
  cases hgv : get_video_files env.rawDir <;>
    cases hc : env.copyOk <;> cases hm : env.manifestOk <;> cases ht : env.triggerOk <;>
      simp [get_spoof_set_uploadCalls, hgv, hc, hm, ht]

/-- A failing upload leaves `dlc_started` exactly as it was, and its error is
never the missing-ellipse error nor the missing-lims-path error. -/
theorem upload_fail_keeps_dlc (env : Env) (w : World) (e : Err)
    (hfail : (upload_video_data_to_lims env w).2 = some e) :
    (upload_video_data_to_lims env w).1.state.dlc_started = w.state.dlc_started
    ∧ e ≠ .noEllipse ∧ e ≠ .noLimsPath := by
  unfold upload_video_data_to_lims copy_video_files_to_lims_incoming_dir
    write_platform_json at hfail ⊢
  cases hgv : get_video_files env.rawDir with
  | error eg =>
    simp [hgv] at hfail ⊢
    rw [← hfail]
    exact get_video_files_err _ _ hgv
  | ok vf =>
    cases hc : env.copyOk with
    | false =>
      simp [hgv, hc] at hfail ⊢
      rw [← hfail]
      exact ⟨by simp, by simp⟩
    | true =>
      cases hm : env.manifestOk with
      | false =>
        simp [hgv, hc, hm] at hfail ⊢
        rw [← hfail]
        exact ⟨by simp, by simp⟩
      | true =>
        cases ht : env.triggerOk with
        | false =>
          simp [hgv, hc, hm, ht] at hfail ⊢
          rw [← hfail]
          exact ⟨by simp, by simp⟩
        | true => simp [hgv, hc, hm, ht] at hfail

@[simp]
theorem dlc_list_of_fst (env : Env) (w1 : World) :
    (dlc_list_of env w1).1 = (get_spoof_ecephys_session env w1).1 := by
  unfold dlc_list_of
  cases hl : env.limsPath (get_spoof_ecephys_session env w1).2 <;> simp [hl]

theorem dlc_list_of_err (env : Env) (w1 : World) (e : Err)
    (h : (dlc_list_of env w1).2 = .error e) : e = .noLimsPath := by
  unfold dlc_list_of at h
  cases hl : env.limsPath (get_spoof_ecephys_session env w1).2 with
  | none =>
    simp [hl] at h
    exact h.symm
  | some tree => simp [hl] at h

/-- Retrieval on a not-yet-started session always attempts the upload once. -/
theorem dlc_uploadCalls_not_started (env : Env) (w : World)
    (h : startedTruthy w.state = false) :
    (get_dlc_paths env w).1.uploadCalls = w.uploadCalls + 1 := by
  have hup := upload_uploadCalls env w
  unfold get_dlc_paths
  simp only [h, Bool.not_false, Bool.or_true, if_true]
  split
  next w1 e heq =>
    rw [heq] at hup
    simpa using hup
  next w1 heq =>
    rw [heq] at hup
    simp at hup
    simp [hup]

/-- C6: when the upload fails at any step before its final one, `dlc_started`
keeps its previous value — the session stays marked not-started — and, if it was
not started before, any subsequent retrieval re-attempts the upload. -/
theorem upload_failure_keeps_not_started (env : Env) (w : World) (e : Err)
    (hfail : (upload_video_data_to_lims env w).2 = some e) :
    (upload_video_data_to_lims env w).1.state.dlc_started = w.state.dlc_started
    ∧ (startedTruthy w.state = false →
        ∀ env2 : Env,
          (get_dlc_paths env2 (upload_video_data_to_lims env w).1).1.uploadCalls
            = (upload_video_data_to_lims env w).1.uploadCalls + 1) := by
  have h1 := (upload_fail_keeps_dlc env w e hfail).1
  refine ⟨h1, fun hs env2 => ?_⟩
  apply dlc_uploadCalls_not_started
  unfold startedTruthy at *
  rw [h1]
  exact hs

theorem upload_failure_keeps_not_started_witness :
    (upload_video_data_to_lims witEnvNoTrigger freshWorld).2 = some .triggerWriteFailed
    ∧ startedTruthy freshWorld.state = false
    ∧ (upload_video_data_to_lims witEnvNoTrigger freshWorld).1.state.dlc_started
        = freshWorld.state.dlc_started
    ∧ (get_dlc_paths witEnvOk
          (upload_video_data_to_lims witEnvNoTrigger freshWorld).1).1.uploadCalls
        = (upload_video_data_to_lims witEnvNoTrigger freshWorld).1.uploadCalls + 1 :=
  ⟨by decide, by decide,
    (upload_failure_keeps_not_started witEnvNoTrigger freshWorld .triggerWriteFailed
      (by decide)).1,
    (upload_failure_keeps_not_started witEnvNoTrigger freshWorld .triggerWriteFailed
      (by decide)).2 (by decide) witEnvOk⟩

/-- `get_dlc_paths` after a successful triggered upload. -/
theorem get_dlc_paths_after_upload (env : Env) (w : World)
    (hcond : (!spoofTruthy w.state || !startedTruthy w.state) = true)
    (W : World) (hup : upload_video_data_to_lims env w = (W, none))
    (s : String) (hsp : W.state.spoof = some s) (hs : s ≠ "")
    (tree : List (String × List String)) (hl : env.limsPath s = some tree) :
    get_dlc_paths env w = (W, .ok (trackingOutputs tree)) := by
  unfold get_dlc_paths
  simp only [hcond, if_true]
  rw [hup]
  simp [dlc_list_of, get_spoof_of_cached env W s hsp hs, hl]

/-- `get_dlc_paths` on an already-started session: no upload happens. -/
theorem get_dlc_paths_no_upload (env : Env) (w : World)
    (hcond : (!spoofTruthy w.state || !startedTruthy w.state) = false)
    (s : String) (hsp : w.state.spoof = some s) (hs : s ≠ "")
    (tree : List (String × List String)) (hl : env.limsPath s = some tree) :
    get_dlc_paths env w = (w, .ok (trackingOutputs tree)) := by
  unfold get_dlc_paths
  simp only [hcond, if_false, Bool.false_eq_true]
  simp [dlc_list_of, get_spoof_of_cached env w s hsp hs, hl]

/-- `get_eye_tracking_paths` when no output name contains `'ellipse'` and the
started flag is truthy: the pending marker. -/
theorem get_eye_from_dlc_pending (env : Env) (w W : World)
    (paths : List (String × String))
    (hdlc : get_dlc_paths env w = (W, .ok paths))
    (hnoell : ∀ q ∈ paths, hasSubstr "ellipse".data q.2.data = false)
    (hstarted : startedTruthy W.state = true) :
    get_eye_tracking_paths env w = (W, .ok none) := by
  unfold get_eye_tracking_paths
  rw [hdlc]
  have hf : paths.find? (fun f => hasSubstr "ellipse".data f.2.data) = none :=
    List.find?_eq_none.mpr (fun x hx => by simp [hnoell x hx])
  simp [hf, hstarted]

/-- `get_eye_tracking_paths` when some output name contains `'ellipse'`. -/
theorem get_eye_from_dlc_ready (env : Env) (w W : World)
    (paths : List (String × String)) (dp : String × String)
    (video_files : List (String × String)) (raw : String)
    (hdlc : get_dlc_paths env w = (W, .ok paths))
    (hfind : paths.find? (fun f => hasSubstr "ellipse".data f.2.data) = some dp)
    (hgv : get_video_files env.rawDir = .ok video_files)
    (hraw : lookupKey "eye_cam_json" video_files = some raw) :
    get_eye_tracking_paths env w =
      (W, .ok (some [("raw_eye_tracking_video_meta_data", raw),
                     ("raw_eye_tracking_filepath", dp.1 ++ "/" ++ dp.2)])) := by
  unfold get_eye_tracking_paths
  rw [hdlc]
  simp [hfind, hgv, hraw]

/-- C2: on a session with `spoof` absent or `dlc_started` absent/false, a
retrieval in a healthy environment runs the upload exactly once and — when no
output name contains `'ellipse'` yet — returns the pending `None`, not an
error. -/
theorem fresh_session_uploads_then_pending (env : Env) (w : World)
    (tree : List (String × List String)) (video_files : List (String × String))
    (hcond : spoofTruthy w.state = false ∨ startedTruthy w.state = false)
    (hcopy : env.copyOk = true) (hman : env.manifestOk = true) (htrig : env.triggerOk = true)
    (hgv : get_video_files env.rawDir = .ok video_files)
    (hfresh : ∀ n, env.freshId n ≠ "")
    (hlims : env.limsPath (get_spoof_ecephys_session env w).2 = some tree)
    (hnoell : ∀ q ∈ trackingOutputs tree, hasSubstr "ellipse".data q.2.data = false) :
    (get_eye_tracking_paths env w).2 = .ok none
    ∧ (get_eye_tracking_paths env w).1.uploadCalls = w.uploadCalls + 1 := by
  have hok := upload_ok env w video_files hcopy hman htrig hgv
  have hsne : (get_spoof_ecephys_session env w).2 ≠ "" := (get_spoof_caches env w hfresh).2
  have hcondb : (!spoofTruthy w.state || !startedTruthy w.state) = true := by
    rcases hcond with h | h <;> simp [h]
  have hdlc := get_dlc_paths_after_upload env w hcondb _ hok
    (get_spoof_ecephys_session env w).2 rfl hsne tree hlims
  have hpend := get_eye_from_dlc_pending env w _ _ hdlc hnoell rfl
  rw [hpend]
  exact ⟨rfl, rfl⟩

theorem fresh_session_uploads_then_pending_witness :
    spoofTruthy freshWorld.state = false
    ∧ (get_eye_tracking_paths witEnvOk freshWorld).2 = .ok none
    ∧ (get_eye_tracking_paths witEnvOk freshWorld).1.uploadCalls
        = freshWorld.uploadCalls + 1 :=
  ⟨by decide,
    fresh_session_uploads_then_pending witEnvOk freshWorld [("eye_tracking", [])]
      [("eye_tracking", "Eye_20230201T122604.mp4"),
       ("eye_cam_json", "Eye_20230201T122604.json")]
      (Or.inl (by decide)) (by decide) (by decide) (by decide) (by decide)
      witEnvOk_freshId (by decide) (by decide)⟩

/-- `get_dlc_paths` never fails with the missing-ellipse error. -/
theorem get_dlc_paths_err_ne (env : Env) (w : World) (e : Err)
    (h : (get_dlc_paths env w).2 = .error e) : e ≠ .noEllipse := by
  unfold get_dlc_paths at h
  split at h
  next hcond =>
    rcases hu : upload_video_data_to_lims env w with ⟨w1, r⟩
    rw [hu] at h
    cases r with
    | some e2 =>
      simp at h
      rw [← h]
      exact (upload_fail_keeps_dlc env w e2 (by rw [hu])).2.1
    | none =>
      simp only [] at h
      rw [dlc_list_of_err env w1 e h]
      simp
  next hcond =>
    rw [dlc_list_of_err env w e h]
    simp

/-- The `FileNotFoundError` branch fires only when no output name contains
`'ellipse'` and the started flag is falsy at that point. -/
theorem noEllipse_flag_false (env : Env) (w : World)
    (h : (get_eye_tracking_paths env w).2 = .error .noEllipse) :
    startedTruthy (get_eye_tracking_paths env w).1.state = false
    ∧ ∃ paths, (get_dlc_paths env w).2 = .ok paths
        ∧ ∀ q ∈ paths, hasSubstr "ellipse".data q.2.data = false := by
  unfold get_eye_tracking_paths at h ⊢
  rcases hd : get_dlc_paths env w with ⟨w1, r⟩
  rw [hd] at h
  cases r with
  | error e2 =>
    simp at h
    exact absurd h (get_dlc_paths_err_ne env w e2 (by rw [hd]))
  | ok paths =>
    cases hf : paths.find? (fun f => hasSubstr "ellipse".data f.2.data) with
    | some dp =>
      simp only [hf] at h ⊢
      cases hgv : get_video_files env.rawDir with
      | error eg =>
        simp [hgv] at h
        exact absurd h (get_video_files_err _ _ hgv).1
      | ok vf =>
        cases hraw : lookupKey "eye_cam_json" vf with
        | none => simp [hgv, hraw] at h
        | some raw => simp [hgv, hraw] at h
    | none =>
      simp only [hf] at h ⊢
      cases hst : startedTruthy w1.state with
      | true => simp [hst] at h
      | false =>
        refine ⟨by simp [hst], paths, by simp, fun q hq => ?_⟩
        have := List.find?_eq_none.mp hf q hq
        simpa using this

/-- C3: with the job existing and started, a missing-ellipse output yields the
pending `None` with no world change (in particular no upload re-trigger); and in
general the missing-ellipse `FileNotFoundError` can arise only when no output
name contains `'ellipse'` and the started flag is falsy at that point. -/
theorem started_no_output_is_pending (env : Env) (w : World)
    (tree : List (String × List String)) (s : String)
    (hsp : w.state.spoof = some s) (hs : s ≠ "")
    (hstart : startedTruthy w.state = true)
    (hlims : env.limsPath s = some tree)
    (hnoell : ∀ q ∈ trackingOutputs tree, hasSubstr "ellipse".data q.2.data = false) :
    get_eye_tracking_paths env w = (w, .ok none)
    ∧ ∀ env2 : Env, ∀ w2 : World,
        (get_eye_tracking_paths env2 w2).2 = .error .noEllipse →
          startedTruthy (get_eye_tracking_paths env2 w2).1.state = false
          ∧ ∃ paths, (get_dlc_paths env2 w2).2 = .ok paths
              ∧ ∀ q ∈ paths, hasSubstr "ellipse".data q.2.data = false := by
  have hcondb : (!spoofTruthy w.state || !startedTruthy w.state) = false := by
    simp [hstart, (spoofTruthy_iff w.state).mpr ⟨s, hsp, hs⟩]
  have hdlc := get_dlc_paths_no_upload env w hcondb s hsp hs tree hlims
  exact ⟨get_eye_from_dlc_pending env w w _ hdlc hnoell hstart,
         fun env2 w2 h => noEllipse_flag_false env2 w2 h⟩

theorem started_no_output_is_pending_witness :
    startedWorld.state.spoof = some "1234567890"
    ∧ startedTruthy startedWorld.state = true
    ∧ witEnvOk.limsPath "1234567890" = some [("eye_tracking", [])]
    ∧ get_eye_tracking_paths witEnvOk startedWorld = (startedWorld, .ok none) :=
  ⟨by decide, by decide, by decide,
    (started_no_output_is_pending witEnvOk startedWorld [("eye_tracking", [])]
      "1234567890" (by decide) (by decide) (by decide) (by decide) (by decide)).1⟩

/-- C4: when the job's output root holds, under an immediate `*_tracking`
subdirectory, a file whose name contains `'ellipse'`, the retriever returns the
two-entry mapping pairing the re-classified `eye_cam_json` raw file with the
first `'ellipse'`-named output in enumeration order. -/
theorem ready_returns_bundle (env : Env) (w : World)
    (tree : List (String × List String)) (video_files : List (String × String))
    (dp : String × String) (raw : String) (s : String)
    (hsp : w.state.spoof = some s) (hs : s ≠ "")
    (hstart : startedTruthy w.state = true)
    (hlims : env.limsPath s = some tree)
    (hfind : (trackingOutputs tree).find? (fun q => hasSubstr "ellipse".data q.2.data)
        = some dp)
    (hgv : get_video_files env.rawDir = .ok video_files)
    (hraw : lookupKey "eye_cam_json" video_files = some raw) :
    get_eye_tracking_paths env w =
      (w, .ok (some [("raw_eye_tracking_video_meta_data", raw),
                     ("raw_eye_tracking_filepath", dp.1 ++ "/" ++ dp.2)])) := by
  have hcondb : (!spoofTruthy w.state || !startedTruthy w.state) = false := by
    simp [hstart, (spoofTruthy_iff w.state).mpr ⟨s, hsp, hs⟩]
  have hdlc := get_dlc_paths_no_upload env w hcondb s hsp hs tree hlims
  exact get_eye_from_dlc_ready env w w _ dp video_files raw hdlc hfind hgv hraw

theorem ready_returns_bundle_witness :
    startedWorld.state.spoof = some "1234567890"
    ∧ startedTruthy startedWorld.state = true
    ∧ witEnvReady.limsPath "1234567890" = some [("eye_tracking", ["out_ellipse.h5"])]
    ∧ get_eye_tracking_paths witEnvReady startedWorld =
        (startedWorld,
          .ok (some [("raw_eye_tracking_video_meta_data", "Eye_20230201T122604.json"),
                     ("raw_eye_tracking_filepath", "eye_tracking" ++ "/" ++ "out_ellipse.h5")])) :=
  ⟨by decide, by decide, by decide,
    ready_returns_bundle witEnvReady startedWorld
      [("eye_tracking", ["out_ellipse.h5"])]
      [("eye_tracking", "Eye_20230201T122604.mp4"),
       ("eye_cam_json", "Eye_20230201T122604.json")]
      ("eye_tracking", "out_ellipse.h5") "Eye_20230201T122604.json" "1234567890"
      (by decide) (by decide) (by decide) (by decide) (by decide) (by decide) (by decide)⟩

end NpEyetracking
